import Mathlib

/-!
Verification of the Webflow brand filter (`src/webflow-brand-filter.js`).

The script filters CMS collection items by two categories (industry,
investment) driven by checkbox selections.  We embed the configuration,
the selection state, the per-item value extraction, the investment range
mapping, the visibility predicate from `applyFilters`, and the mutating
operations (`handleFilterChange`, `clearAllFilters`, `setFilters`), and
prove the spec's properties about them.
-/

namespace BrandFilter

/-- Source `CONFIG.industries`: the fixed list of industry filter options. -/
def industries : List String :=
  ["Children\u0027s",
   "Home Services",
   "Entertainment",
   "Food & Beverage",
   "Employment & Staffing",
   "Pet Services",
   "Beauty",
   "Health & Wellness",
   "Automotive"]

/-- Source `CONFIG.investments`: the fixed list of investment filter options. -/
def investments : List String :=
  ["Under $250K",
   "$250K-$500K",
   "$500k+"]

/-- Source `CONFIG.investmentMapping`: maps CMS investment values to the filter
range(s) they fall within. -/
def investmentMapping : List (String × List String) :=
  [("Under $150K", ["Under $250K"]),
   ("$150K-$250K", ["Under $250K"]),
   ("$250K-$500K", ["$250K-$500K"]),
   ("$500k+", ["$500k+"])]

/-- The mutable `activeFilters` state: one selection list per category. -/
structure Filters where
  industry : List String
  investment : List String
deriving Repr, DecidableEq

/-- The two filter categories (the `data-filter` attribute values used as
keys into `activeFilters`). -/
inductive Category where
  | industry
  | investment
deriving Repr, DecidableEq

/-- Dynamic read `activeFilters[filterType]`. -/
def Filters.get (st : Filters) : Category → List String
  | Category.industry => st.industry
  | Category.investment => st.investment

/-- Dynamic write `activeFilters[filterType] = l`. -/
def Filters.set (st : Filters) : Category → List String → Filters
  | Category.industry, l => { st with industry := l }
  | Category.investment, l => { st with investment := l }

/-- The per-category option lists of `CONFIG`. -/
def optionsFor : Category → List String
  | Category.industry => industries
  | Category.investment => investments

/-- A collection item as the script reads it from the DOM: the optional
`data-industry` / `data-investment` attributes (`none` when the attribute
is absent, `some ""` when present but empty, which is falsy in JS), and
the text contents of the nested multi-reference elements. -/
structure ItemDom where
  dataIndustry : Option String
  dataInvestment : Option String
  nestedIndustries : List String
  nestedInvestments : List String
deriving Repr

/-- JS `String.prototype.trim()`: drop leading and trailing whitespace
(modelled structurally over the character list so that it evaluates). -/
def trim (s : String) : String :=
  String.mk (((s.data.dropWhile Char.isWhitespace).reverse.dropWhile
    Char.isWhitespace).reverse)

/-- The multi-reference branch shared by both extractors: if any nested
elements exist, their trimmed text contents; otherwise the empty list. -/
def multiRefValues (els : List String) : List String :=
  if els.length > 0 then els.map trim else []

/-- Source `getItemIndustries`: the trimmed `data-industry` attribute when it is
present and non-empty (JS truthiness), otherwise the nested
multi-reference values. -/
def getItemIndustries (item : ItemDom) : List String :=
  match item.dataIndustry with
  | some s => if s == "" then multiRefValues item.nestedIndustries else [trim s]
  | none => multiRefValues item.nestedIndustries

/-- Source `getItemInvestments`: same extraction for the investment category. -/
def getItemInvestments (item : ItemDom) : List String :=
  match item.dataInvestment with
  | some s => if s == "" then multiRefValues item.nestedInvestments else [trim s]
  | none => multiRefValues item.nestedInvestments

/-- Source `mapInvestmentToRanges`: a CMS value already equal to a filter range
maps to itself; otherwise it is looked up in `investmentMapping`
(`CONFIG.investmentMapping[cmsValue] || []`). -/
def mapInvestmentToRanges (cmsValue : String) : List String :=
  if investments.contains cmsValue then [cmsValue]
  else
    match investmentMapping.lookup cmsValue with
    | some ranges => ranges
    | none => []

/-- Predicate `matchesIndustry` from `applyFilters`: empty selection matches
unconditionally; otherwise some item industry is in the selection. -/
def matchesIndustry (sel : List String) (item : ItemDom) : Bool :=
  sel.length == 0 || (getItemIndustries item).any (fun ind => sel.contains ind)

/-- Predicate `matchesInvestment` from `applyFilters`: empty selection matches
unconditionally; otherwise some item investment value has a mapped range
in the selection. -/
def matchesInvestment (sel : List String) (item : ItemDom) : Bool :=
  sel.length == 0 ||
    (getItemInvestments item).any (fun inv =>
      (mapInvestmentToRanges inv).any (fun range => sel.contains range))

/-- Predicate `isVisible` from `applyFilters`: AND of the two category results. -/
def isVisible (st : Filters) (item : ItemDom) : Bool :=
  matchesIndustry st.industry item && matchesInvestment st.investment item

/-- The observable outcome of one `applyFilters` pass: the per-item
visibility signals, the visible count passed to `updateResultsCount`, and
the flag passed to `toggleNoResults`. -/
structure ApplyResult where
  visible : List Bool
  visibleCount : Nat
  noResults : Bool
deriving Repr, DecidableEq

/-- Source `applyFilters`: evaluate every item, count the visible ones, and set
the no-results flag iff the count is zero and some selection is active. -/
def applyFilters (st : Filters) (items : List ItemDom) : ApplyResult :=
  let flags := items.map (fun item => isVisible st item)
  { visible := flags
    visibleCount := flags.count true
    noResults :=
      (flags.count true == 0) &&
        (decide (st.industry.length > 0) || decide (st.investment.length > 0)) }

/-- Source `clearAllFilters`: reset the state to empty selections. -/
def clearAllFilters (_st : Filters) : Filters :=
  { industry := [], investment := [] }

/-- Source `handleFilterChange`: a checkbox toggle adds the checkbox value to the
category's selection (if not already there) or removes it. -/
def handleFilterChange (st : Filters) (cat : Category) (value : String)
    (checked : Bool) : Filters :=
  if checked then
    if (st.get cat).contains value then st
    else st.set cat (st.get cat ++ [value])
  else
    st.set cat ((st.get cat).filter (fun v => v != value))

/-- A value supplied for one category of the `setFilters` argument:
either an array of strings or a single string. -/
inductive FilterVal where
  | arr (vs : List String)
  | single (s : String)
deriving Repr, DecidableEq

/-- JS truthiness of a supplied value: arrays are always truthy, a string
is truthy iff non-empty. -/
def FilterVal.truthy : FilterVal → Bool
  | FilterVal.arr _ => true
  | FilterVal.single s => s != ""

/-- JS coercion `Array.isArray(x) ? x : [x]`. -/
def FilterVal.toList : FilterVal → List String
  | FilterVal.arr vs => vs
  | FilterVal.single s => [s]

/-- The `filters` argument of `setFilters`: each category key may be
absent. -/
structure SetFiltersArg where
  industry : Option FilterVal := none
  investment : Option FilterVal := none
deriving Repr, DecidableEq

/-- Source `setFilters`: each category is overwritten only when the argument
supplies a truthy value for it (`if (filters.industry) ...`). -/
def setFilters (st : Filters) (f : SetFiltersArg) : Filters :=
  let ind :=
    match f.industry with
    | some v => if v.truthy then v.toList else st.industry
    | none => st.industry
  let inv :=
    match f.investment with
    | some v => if v.truthy then v.toList else st.investment
    | none => st.investment
  { industry := ind, investment := inv }

/-- Source `updateResultsCount`: writes the count into the results-count element
when it exists, otherwise does nothing. -/
def updateResultsCount (countEl : Option String) (count : Nat) : Option String :=
  match countEl with
  | none => none
  | some _ => some (toString count)

/-- Source `toggleNoResults`: sets the no-results element's display property
when the element exists, otherwise does nothing. -/
def toggleNoResults (noResultsEl : Option String) (b : Bool) : Option String :=
  match noResultsEl with
  | none => none
  | some _ => some (if b then "block" else "none")

/-- Source `setup`: with no filter container the function returns early and no
evaluation pass runs; otherwise the initial `applyFilters` pass runs. -/
def setup (filterContainer : Option (List String)) (st : Filters)
    (items : List ItemDom) : Option ApplyResult :=
  match filterContainer with
  | none => none
  | some _ => some (applyFilters st items)

/-- The spec's state invariant: each category's selection contains only
configured option values. -/
def selInvariant (st : Filters) : Prop :=
  (∀ v ∈ st.industry, v ∈ industries) ∧ (∀ v ∈ st.investment, v ∈ investments)

end BrandFilter

namespace BrandFilter

/-! ### Helper lemmas -/

/-- With both selections empty, every item is visible (the `||` short
circuits on `length == 0`). -/
theorem isVisible_emptyState (item : ItemDom) :
    isVisible { industry := [], investment := [] } item = true := rfl

/-- A non-empty selection list turns the `length == 0` guard off. -/
theorem length_beq_zero_eq_false {sel : List String} (h : sel ≠ []) :
    (sel.length == 0) = false := by
  simp [List.length_eq_zero, h]

/-- Lemma: `matchesIndustry` on a non-empty selection is exactly the
exists-a-shared-value test. -/
theorem matchesIndustry_nonempty {sel : List String} (item : ItemDom)
    (h : sel ≠ []) :
    matchesIndustry sel item = true ↔ ∃ v ∈ getItemIndustries item, v ∈ sel := by
  simp [matchesIndustry, length_beq_zero_eq_false h, List.any_eq_true]

/-- Lemma: `matchesInvestment` on a non-empty selection is exactly the
exists-a-mapped-range-in-selection test. -/
theorem matchesInvestment_nonempty {sel : List String} (item : ItemDom)
    (h : sel ≠ []) :
    matchesInvestment sel item = true ↔
      ∃ v ∈ getItemInvestments item, ∃ r ∈ mapInvestmentToRanges v, r ∈ sel := by
  simp [matchesInvestment, length_beq_zero_eq_false h, List.any_eq_true]

/-! ### Claim theorems -/

/-- Claim C1: with both selection sets non-empty, an item is visible iff
both the industry category result and the investment category result are
true (AND semantics across the two categories). -/
theorem C1_and_across_categories (st : Filters) (item : ItemDom)
    (_hI : st.industry ≠ []) (_hV : st.investment ≠ []) :
    isVisible st item = true ↔
      matchesIndustry st.industry item = true ∧
        matchesInvestment st.investment item = true := by
  simp [isVisible]

/-- Claim C1 witness: a concrete two-category selection and an item that
matches industry but not investment, instantiating the theorem. -/
theorem C1_and_across_categories_witness :
    isVisible { industry := ["Food & Beverage"], investment := ["Under $250K"] }
        { dataIndustry := some "Food & Beverage", dataInvestment := some "$500k+",
          nestedIndustries := [], nestedInvestments := [] } = true ↔
      matchesIndustry ["Food & Beverage"]
          { dataIndustry := some "Food & Beverage", dataInvestment := some "$500k+",
            nestedIndustries := [], nestedInvestments := [] } = true ∧
        matchesInvestment ["Under $250K"]
            { dataIndustry := some "Food & Beverage", dataInvestment := some "$500k+",
              nestedIndustries := [], nestedInvestments := [] } = true :=
  C1_and_across_categories _ _ (by decide) (by decide)

/-- Claim C4: with both selection sets empty, every item is visible. -/
theorem C4_empty_selections_show_all (st : Filters) (item : ItemDom)
    (hI : st.industry = []) (hV : st.investment = []) :
    isVisible st item = true := by
  cases st
  cases hI
  cases hV
  exact isVisible_emptyState item

/-- Claim C4 witness: the theorem at a concrete empty state and item. -/
theorem C4_empty_selections_show_all_witness :
    isVisible { industry := [], investment := [] }
      { dataIndustry := none, dataInvestment := none,
        nestedIndustries := [], nestedInvestments := [] } = true :=
  C4_empty_selections_show_all _ _ rfl rfl

/-- Claim C6: an item with no values in a category never matches a
non-empty selection in that category. -/
theorem C6_no_values_no_match (sel : List String) (item : ItemDom)
    (h : sel ≠ []) :
    (getItemIndustries item = [] → matchesIndustry sel item = false) ∧
      (getItemInvestments item = [] → matchesInvestment sel item = false) := by
  constructor
  · intro hv
    simp [matchesIndustry, length_beq_zero_eq_false h, hv]
  · intro hv
    simp [matchesInvestment, length_beq_zero_eq_false h, hv]

/-- Claim C6 witness: a concrete value-less item and the singleton
selection `["Beauty"]`, instantiating the theorem. -/
theorem C6_no_values_no_match_witness :
    matchesIndustry ["Beauty"]
      { dataIndustry := none, dataInvestment := none,
        nestedIndustries := [], nestedInvestments := [] } = false :=
  (C6_no_values_no_match ["Beauty"] _ (by decide)).1 rfl

end BrandFilter

namespace BrandFilter

/-- Claim C2: a raw investment value equal to a configured filter option
maps to exactly that option; otherwise it is expanded through the fixed
mapping table (empty expansion when absent); concretely, under selection
`{investment: ["Under $250K"]}` an item with value `"Under $150K"` is
visible and an item with value `"$250K-$500K"` is hidden. -/
theorem C2_investment_mapping :
    (∀ v, v ∈ investments → mapInvestmentToRanges v = [v]) ∧
      (∀ v, v ∉ investments →
        mapInvestmentToRanges v = (investmentMapping.lookup v).getD []) ∧
      (applyFilters { industry := [], investment := ["Under $250K"] }
          [{ dataIndustry := none, dataInvestment := some "Under $150K",
             nestedIndustries := [], nestedInvestments := [] },
           { dataIndustry := none, dataInvestment := some "$250K-$500K",
             nestedIndustries := [], nestedInvestments := [] }]).visible =
        [true, false] := by
  refine ⟨?_, ?_, by decide⟩
  · intro v hv
    simp [mapInvestmentToRanges, hv]
  · intro v hv
    have hc : investments.contains v = false := by
      simp [List.contains, hv]
    simp only [mapInvestmentToRanges, hc, Bool.false_eq_true, if_false]
    cases h : investmentMapping.lookup v <;> simp [h, Option.getD]

/-- Claim C2 witness: the mapping facts instantiated at the concrete
values `"Under $250K"` (a literal option) and `"Under $150K"` (a mapped
raw value). -/
theorem C2_investment_mapping_witness :
    mapInvestmentToRanges "Under $250K" = ["Under $250K"] ∧
      mapInvestmentToRanges "Under $150K" =
        (investmentMapping.lookup "Under $150K").getD [] :=
  ⟨C2_investment_mapping.1 "Under $250K" (by decide),
   C2_investment_mapping.2.1 "Under $150K" (by decide)⟩

/-- Claim C3: after an evaluation pass, the no-results signal is true iff
the visible count is zero and at least one selection set is non-empty;
with both selection sets empty it is false. -/
theorem C3_no_results_signal (st : Filters) (items : List ItemDom) :
    ((applyFilters st items).noResults = true ↔
        (applyFilters st items).visibleCount = 0 ∧
          (st.industry ≠ [] ∨ st.investment ≠ [])) ∧
      (st.industry = [] → st.investment = [] →
        (applyFilters st items).noResults = false) := by
  constructor
  · simp [applyFilters, List.length_pos]
  · intro hI hV
    simp [applyFilters, hI, hV]

/-- Claim C3 witness: the both-empty branch of the theorem at a concrete
state with zero visible items (no items at all), where the signal is
still false. -/
theorem C3_no_results_signal_witness :
    (applyFilters { industry := [], investment := [] } []).noResults = false :=
  (C3_no_results_signal { industry := [], investment := [] } []).2 rfl rfl

end BrandFilter

namespace BrandFilter

/-- Claim C5: with exactly one category selected, visibility collapses to
that category's OR-test: industry-only selections test membership of some
item industry; investment-only selections test membership of some mapped
range of some item investment value. -/
theorem C5_single_category_or (st : Filters) (item : ItemDom) :
    (st.industry ≠ [] → st.investment = [] →
      (isVisible st item = true ↔ ∃ v ∈ getItemIndustries item, v ∈ st.industry)) ∧
      (st.industry = [] → st.investment ≠ [] →
        (isVisible st item = true ↔
          ∃ v ∈ getItemInvestments item,
            ∃ r ∈ mapInvestmentToRanges v, r ∈ st.investment)) := by
  constructor
  · intro hI hV
    have hv : matchesInvestment st.investment item = true := by
      simp [matchesInvestment, hV]
    simp [isVisible, hv, matchesIndustry_nonempty item hI]
  · intro hI hV
    have hi : matchesIndustry st.industry item = true := by
      simp [matchesIndustry, hI]
    simp [isVisible, hi, matchesInvestment_nonempty item hV]

/-- Claim C5 witness: the industry-only direction at the spec's concrete
example (selection `["Food & Beverage"]`, item in that industry). -/
theorem C5_single_category_or_witness :
    isVisible { industry := ["Food & Beverage"], investment := [] }
        { dataIndustry := some "Food & Beverage", dataInvestment := none,
          nestedIndustries := [], nestedInvestments := [] } = true ↔
      ∃ v ∈ getItemIndustries
          { dataIndustry := some "Food & Beverage", dataInvestment := none,
            nestedIndustries := [], nestedInvestments := [] },
        v ∈ ["Food & Beverage"] :=
  (C5_single_category_or { industry := ["Food & Beverage"], investment := [] }
    _).1 (by decide) rfl

/-- After clearing, the count of `true` visibility flags is the number of
items. -/
theorem count_true_cleared (items : List ItemDom) :
    ((items.map (fun item =>
      isVisible { industry := [], investment := [] } item)).count true) =
      items.length := by
  induction items with
  | nil => rfl
  | cons a t ih =>
      simp [List.count_cons, ih, isVisible_emptyState]

/-- Claim C7: from any prior state, clearing resets both selection sets
to empty, and the following pass shows every item (full visible count)
with the no-results signal false. -/
theorem C7_clear_all_restores (st : Filters) (items : List ItemDom) :
    clearAllFilters st = { industry := [], investment := [] } ∧
      (items.all (fun item => isVisible (clearAllFilters st) item)) = true ∧
      (applyFilters (clearAllFilters st) items).visibleCount = items.length ∧
      (applyFilters (clearAllFilters st) items).noResults = false := by
  refine ⟨rfl, ?_, ?_, ?_⟩
  · simp [List.all_eq_true, clearAllFilters, isVisible_emptyState]
  · simp [applyFilters, clearAllFilters, count_true_cleared]
  · simp [applyFilters, clearAllFilters]

end BrandFilter

namespace BrandFilter

/-- Claim C8 counterexample: starting from a state satisfying the
invariant, `setFilters` stores the unvalidated value `"Bogus"`, which is
not a configured industry option — the mutation does not preserve the
invariant. -/
theorem C8_counterexample :
    selInvariant { industry := [], investment := [] } ∧
      ¬ selInvariant
        (setFilters { industry := [], investment := [] }
          { industry := some (FilterVal.arr ["Bogus"]), investment := none }) := by
  constructor
  · exact ⟨by simp, by simp⟩
  · intro h
    have hmem : "Bogus" ∈
        (setFilters { industry := [], investment := [] }
          { industry := some (FilterVal.arr ["Bogus"]), investment := none }).industry := by
      decide
    exact absurd (h.1 "Bogus" hmem) (by decide)

/-- Claim C8 amended: `clearAllFilters` preserves the invariant
unconditionally; `handleFilterChange` and `setFilters` perform no
validation, so they preserve it only when the supplied values are drawn
from the configured option lists (which the auto-generated checkbox UI
guarantees for checkbox changes). -/
theorem C8_amended_conditional_invariant :
    (∀ st cat v chk, selInvariant st → v ∈ optionsFor cat →
      selInvariant (handleFilterChange st cat v chk)) ∧
      (∀ st f, selInvariant st →
        (∀ w, f.industry = some w → ∀ v ∈ w.toList, v ∈ industries) →
        (∀ w, f.investment = some w → ∀ v ∈ w.toList, v ∈ investments) →
        selInvariant (setFilters st f)) ∧
      (∀ st, selInvariant (clearAllFilters st)) := by
  refine ⟨?_, ?_, ?_⟩
  · intro st cat v chk hst hv
    obtain ⟨hind, hinv⟩ := hst
    cases cat with
    | industry =>
        cases chk with
        | false =>
            refine ⟨fun x hx => ?_, fun x hx => hinv x ?_⟩ <;>
              simp only [handleFilterChange, Bool.false_eq_true, if_false,
                Filters.get, Filters.set] at hx
            · exact hind x (List.mem_filter.mp hx).1
            · exact hx
        | true =>
            simp only [handleFilterChange, if_true, Filters.get, Filters.set]
            split
            · exact ⟨hind, hinv⟩
            · refine ⟨fun x hx => ?_, hinv⟩
              rcases List.mem_append.mp hx with h | h
              · exact hind x h
              · rcases List.mem_singleton.mp h with rfl
                exact hv
    | investment =>
        cases chk with
        | false =>
            refine ⟨fun x hx => hind x ?_, fun x hx => ?_⟩ <;>
              simp only [handleFilterChange, Bool.false_eq_true, if_false,
                Filters.get, Filters.set] at hx
            · exact hx
            · exact hinv x (List.mem_filter.mp hx).1
        | true =>
            simp only [handleFilterChange, if_true, Filters.get, Filters.set]
            split
            · exact ⟨hind, hinv⟩
            · refine ⟨hind, fun x hx => ?_⟩
              rcases List.mem_append.mp hx with h | h
              · exact hinv x h
              · rcases List.mem_singleton.mp h with rfl
                exact hv
  · intro st f hst hInd hInv
    obtain ⟨hind, hinv⟩ := hst
    constructor
    · intro x hx
      rcases hfi : f.industry with _ | w
      · exact hind x (by simpa [setFilters, hfi] using hx)
      · by_cases ht : w.truthy = true
        · exact hInd w hfi x (by simpa [setFilters, hfi, ht] using hx)
        · exact hind x (by simpa [setFilters, hfi, ht] using hx)
    · intro x hx
      rcases hfv : f.investment with _ | w
      · exact hinv x (by simpa [setFilters, hfv] using hx)
      · by_cases ht : w.truthy = true
        · exact hInv w hfv x (by simpa [setFilters, hfv, ht] using hx)
        · exact hinv x (by simpa [setFilters, hfv, ht] using hx)
  · intro st
    exact ⟨by simp [clearAllFilters], by simp [clearAllFilters]⟩

/-- Claim C8 amended witness: checking the configured value `"Beauty"`
from the empty state preserves the invariant. -/
theorem C8_amended_conditional_invariant_witness :
    selInvariant
      (handleFilterChange { industry := [], investment := [] }
        Category.industry "Beauty" true) :=
  C8_amended_conditional_invariant.1 { industry := [], investment := [] }
    Category.industry "Beauty" true ⟨by simp, by simp⟩ (by decide)

end BrandFilter

namespace BrandFilter

/-- Claim C9 counterexample: the single non-array value `""` supplied for
the industry category is falsy in JS, so `setFilters` skips it — the
selection stays empty instead of becoming the one-element list `[""]`. -/
theorem C9_counterexample :
    (setFilters { industry := [], investment := [] }
        { industry := some (FilterVal.single ""), investment := none }).industry
        = [] ∧
      (setFilters { industry := [], investment := [] }
          { industry := some (FilterVal.single ""), investment := none }).industry
          ≠ [""] := by
  decide

/-- Claim C9 amended: an argument providing a value for only one category
leaves the other category's selection unchanged; a single non-array value
is stored as a one-element list when it is truthy (a non-empty string),
while a falsy value (the empty string) leaves that category unchanged. -/
theorem C9_set_filters_frame :
    (∀ st w, (setFilters st { industry := some w, investment := none }).investment
      = st.investment) ∧
      (∀ st w, (setFilters st { industry := none, investment := some w }).industry
        = st.industry) ∧
      (∀ st s, s ≠ "" →
        (setFilters st { industry := some (FilterVal.single s), investment := none }).industry
          = [s]) ∧
      (∀ st, (setFilters st
        { industry := some (FilterVal.single ""), investment := none }).industry
          = st.industry) ∧
      (∀ st s, s ≠ "" →
        (setFilters st { industry := none, investment := some (FilterVal.single s) }).investment
          = [s]) ∧
      (∀ st, (setFilters st
        { industry := none, investment := some (FilterVal.single "") }).investment
          = st.investment) := by
  refine ⟨?_, ?_, ?_, ?_, ?_, ?_⟩
  · intro st w
    simp [setFilters]
  · intro st w
    simp [setFilters]
  · intro st s hs
    simp [setFilters, FilterVal.truthy, FilterVal.toList, hs]
  · intro st
    simp [setFilters, FilterVal.truthy]
  · intro st s hs
    simp [setFilters, FilterVal.truthy, FilterVal.toList, hs]
  · intro st
    simp [setFilters, FilterVal.truthy]

/-- Claim C9 amended witness: a concrete truthy single value is stored as
a one-element list, instantiating the theorem. -/
theorem C9_set_filters_frame_witness :
    (setFilters { industry := ["Automotive"], investment := ["$500k+"] }
        { industry := some (FilterVal.single "Beauty"), investment := none }).industry
      = ["Beauty"] :=
  C9_set_filters_frame.2.2.1 { industry := ["Automotive"], investment := ["$500k+"] }
    "Beauty" (by decide)

/-- Claim C10: absent host elements make the corresponding steps no-ops
(`setup` with no filter container runs no pass, `updateResultsCount` and
`toggleNoResults` with no element write nothing), and an unrecognized
investment value expands to no ranges, hence never matches a non-empty
selection. -/
theorem C10_no_error_degradation :
    (∀ st items, setup none st items = none) ∧
      (∀ count, updateResultsCount none count = none) ∧
      (∀ b, toggleNoResults none b = none) ∧
      (∀ v, v ∉ investments → investmentMapping.lookup v = none →
        mapInvestmentToRanges v = []) ∧
      (∀ sel item, sel ≠ [] →
        (∀ v ∈ getItemInvestments item, mapInvestmentToRanges v = []) →
        matchesInvestment sel item = false) := by
  refine ⟨fun st items => rfl, fun count => rfl, fun b => rfl, ?_, ?_⟩
  · intro v hv hlook
    have hc : investments.contains v = false := by
      simp [List.contains, hv]
    simp only [mapInvestmentToRanges, hc, Bool.false_eq_true, if_false, hlook]
  · intro sel item hsel hmap
    simp only [matchesInvestment, length_beq_zero_eq_false hsel,
      Bool.false_or, List.any_eq_false]
    intro v hv
    rw [hmap v hv]
    simp

/-- Claim C10 witness: the unrecognized CMS value `"garbage"` expands to
no ranges, and an item carrying only that value never matches the
non-empty selection `["Under $250K"]`. -/
theorem C10_no_error_degradation_witness :
    mapInvestmentToRanges "garbage" = [] ∧
      matchesInvestment ["Under $250K"]
        { dataIndustry := none, dataInvestment := some "garbage",
          nestedIndustries := [], nestedInvestments := [] } = false :=
  ⟨C10_no_error_degradation.2.2.2.1 "garbage" (by decide) (by decide),
   C10_no_error_degradation.2.2.2.2 ["Under $250K"] _ (by decide)
     (by decide)⟩

end BrandFilter
